import Mathlib

/-!
Shallow embedding of the secret-poker contract (src/contract.rs, src/state.rs,
src/error.rs, src/msg.rs) and proofs about its card-dealing and
secret-disclosure engine.

Machine integers are modelled as `Nat` with explicit reduction modulo `2 ^ 64`
where the Rust code uses wrapping `u64` arithmetic.  The two cryptographic
primitives are abstracted as oracles:
* `hkdf_sha_512` keyed by the block entropy and the little-endian counter
  bytes becomes an arbitrary function `Nat → Nat` from counter values to
  derived 64-bit values (carried inside `Env`, `none` when the block entropy
  is absent);
* `Sha256` over `(seed, position, attempt)` inside `shuffle_deck` becomes an
  arbitrary function `Nat → Nat → Nat → Nat`.
The unbounded rejection-sampling loop of `shuffle_deck` is totalised with an
explicit `fuel` bound on the number of attempts; exhausting the fuel is
reported as the distinguished failure `Failure.outOfFuel`, which has no
counterpart in the Rust code (there the loop would simply keep running).
Rust panics (`unwrap` on `None`, out-of-bounds indexing) are modelled as the
failure value `Failure.abort`; `Result::Err` values propagated with `?` keep
their typed payloads.
-/

namespace SecretPoker

/-- Modulus of unsigned 64-bit arithmetic. -/
def u64Mod : Nat := 2 ^ 64

/-- Largest `u64` value, i.e. `u64::MAX`. -/
def u64Max : Nat := 2 ^ 64 - 1

/-- Wrapping 64-bit addition, `u64::wrapping_add`. -/
def wrapAdd (a b : Nat) : Nat := (a + b) % u64Mod

/-- Wrapping 64-bit subtraction, `u64::wrapping_sub`. -/
def wrapSub (a b : Nat) : Nat := (a + (u64Mod - b % u64Mod)) % u64Mod

/-- A playing card: one byte packing a suit (high nibble) and a rank
(low nibble), from `state.rs` `Card(u8)`. -/
structure Card where
  val : Nat
deriving DecidableEq

/-- Embedding of `Card::new` from `state.rs`: packs suit and rank as `(suit << 4) | rank`. -/
def Card.new (suit rank : Nat) : Card := ⟨(suit <<< 4) ||| rank⟩

/-- Embedding of `Card::suit` from `state.rs`. -/
def Card.suit (c : Card) : Nat := c.val >>> 4

/-- Embedding of `Card::rank` from `state.rs`. -/
def Card.rank (c : Card) : Nat := c.val &&& 15

/-- Suit symbols used by `Card::to_string` in `state.rs`. -/
def suitSymbols : List String := ["♣", "♦", "♥", "♠"]

/-- Rank symbols used by `Card::to_string` in `state.rs`. -/
def rankSymbols : List String :=
  ["A", "2", "3", "4", "5", "6", "7", "8", "9", "10", "J", "Q", "K"]

/-- Embedding of `Card::to_string` from `state.rs`: suit symbol followed by rank symbol.
Totalised with a default empty string where the Rust indexing would be out of
bounds (unreachable for cards built by `Deck::new`). -/
def Card.render (c : Card) : String :=
  (suitSymbols.getD c.suit "") ++ (rankSymbols.getD (c.rank - 1) "")

/-- Embedding of `Deck::new` from `state.rs`: the canonical 52-card deck, suits `0..3`
and ranks `1..=13` in nested order. -/
def Deck.new : List Card :=
  (List.range 4).flatMap (fun suit => (List.range 13).map (fun r => Card.new suit (r + 1)))

/-- Embedding of `Vec::pop` on the deck: removes and returns the last card. -/
def popCard (cards : List Card) : Option (Card × List Card) :=
  match cards.getLast? with
  | none => none
  | some c => some (c, cards.dropLast)

/-- Embedding of `Vec::swap i j` on a list, as used by `shuffle_deck`.  Out-of-bounds
indices (a Rust panic, unreachable in the shuffle) leave the list unchanged. -/
def swapList (l : List Card) (i j : Nat) : List Card :=
  match l[i]?, l[j]? with
  | some a, some b => (l.set i b).set j a
  | _, _ => l

/-- One position's rejection-sampling loop inside `helpers::shuffle_deck`
(contract.rs): at position `i` the upper bound is `i + 1`, the threshold is
`(u64::MAX / (i+1)) * (i+1)`, and candidates `hash seed i attempt` (the first
8 bytes of the SHA-256 digest of the three little-endian arguments, read
little-endian) are drawn for `attempt = 0, 1, ...` until one falls strictly
below the threshold; that candidate modulo `i + 1` is the swap index.  `fuel`
bounds the number of attempts to keep the function total. -/
def sampleIndex (hash : Nat → Nat → Nat → Nat) (seed i : Nat) :
    Nat → Nat → Option Nat
  | 0, _ => none
  | fuel + 1, attempt =>
    let upper_bound := i + 1
    let threshold := (u64Max / upper_bound) * upper_bound
    let random_value := hash seed i attempt % u64Mod
    if random_value < threshold then some (random_value % upper_bound)
    else sampleIndex hash seed i fuel (attempt + 1)

/-- The Fisher-Yates sweep of `helpers::shuffle_deck`: positions are visited
from `i` down to `1`, each swapped with the sampled index. -/
def shuffleSteps (hash : Nat → Nat → Nat → Nat) (fuel seed : Nat) :
    Nat → List Card → Option (List Card)
  | 0, cards => some cards
  | i + 1, cards =>
    match sampleIndex hash seed (i + 1) fuel 0 with
    | none => none
    | some j => shuffleSteps hash fuel seed i (swapList cards (i + 1) j)

/-- Embedding of `helpers::shuffle_deck` from contract.rs: the in-place Fisher-Yates
shuffle, starting at the last position of the deck. -/
def shuffle_deck (hash : Nat → Nat → Nat → Nat) (fuel : Nat)
    (cards : List Card) (seed : Nat) : Option (List Card) :=
  shuffleSteps hash fuel seed (cards.length - 1) cards

/-- Failure modes of the embedded contract code. -/
inductive GameState where
  | PreFlop
  | Flop
  | Turn
  | River
deriving DecidableEq

/-- The typed error enum of `error.rs` (the variants reachable from the
embedded handlers). -/
inductive ContractError where
  | Unauthorized
  | GameStateError (method : String) (table_id : Nat) (game_state : Option GameState)
  | CardsAlreadyRetrieved
  | PlayerNotFound (table_id : Nat) (player : Nat)
  | TableNotFound (table_id : Nat)
  | SerializationFailed (error : String)
  | DuplicatePublicKeys
  | InvalidPlayerCount (count : Nat)
deriving DecidableEq

/-- How an embedded operation can fail: `abort` models a Rust panic (an
`unwrap` on `None` or an out-of-bounds index), `stdErr` a propagated
`StdError` from a lower-level collaborator, `contractError` a typed
`ContractError`, and `outOfFuel` exhaustion of the totalisation fuel of the
rejection-sampling loop (no Rust counterpart: there the loop keeps running). -/
inductive Failure where
  | abort
  | stdErr
  | contractError (e : ContractError)
  | outOfFuel
deriving DecidableEq

/-- The relevant parts of the cosmwasm `Env`: `randomOracle` abstracts the
pair (block entropy `env.block.random`, `hkdf_sha_512`) as a map from counter
values to derived 64-bit values, `none` when the entropy is absent;
`time` is `env.block.time`. -/
structure Env where
  randomOracle : Option (Nat → Nat)
  time : Nat

/-- Embedding of `helpers::generate_random_number` from contract.rs: unwraps the block
entropy (a Rust panic when absent), derives 64 bytes with HKDF keyed by the
little-endian counter bytes, returns the first 8 bytes as a little-endian
`u64`, and increments the counter by one. -/
def generate_random_number (env : Env) (counter : Nat) :
    Except Failure (Nat × Nat) :=
  match env.randomOracle with
  | none => .error .abort
  | some f => .ok (f counter % u64Mod, counter + 1)

/-- The `for _ in 0..(players - 1)` loop of
`helpers::additive_secret_sharing`: draws `k` random shares, appending each
to `shares` and wrapping-adding it into `sum`. -/
def shareLoop (env : Env) : Nat → Nat → List Nat → Nat →
    Except Failure (List Nat × Nat × Nat)
  | 0, counter, shares, sum => .ok (shares, sum, counter)
  | k + 1, counter, shares, sum =>
    match generate_random_number env counter with
    | .error e => .error e
    | .ok (share, c') => shareLoop env k c' (shares ++ [share]) (wrapAdd sum share)

/-- Embedding of `helpers::additive_secret_sharing` from contract.rs: draws `players - 1`
random shares and appends `secret.wrapping_sub(sum)` as the final share. -/
def additive_secret_sharing (env : Env) (players : Nat) (secret : Nat)
    (counter : Nat) : Except Failure (List Nat × Nat) :=
  match shareLoop env (players - 1) counter [] 0 with
  | .error e => .error e
  | .ok (shares, sum, c') => .ok (shares ++ [wrapSub secret sum], c')

/-- Embedding of `msg.rs` `StartGamePlayer`: the caller-supplied identity of one player.
The UUID `player_id` is modelled as a `Nat`. -/
structure StartGamePlayer where
  username : String
  player_id : Nat
  public_key : String
deriving DecidableEq

/-- Embedding of `state.rs` `Player`: identity plus private hole cards, hand secret and
the three per-phase secret shares. -/
structure Player where
  username : String
  player_id : Nat
  public_key : String
  hand : List Card
  hand_secret : Nat
  flop_secret_share : Nat
  turn_secret_share : Nat
  river_secret_share : Nat
deriving DecidableEq

/-- Embedding of `state.rs` `Flop`: three cards, the phase secret and the one-shot reveal
timestamp (block times modelled as `Nat`). -/
structure Flop where
  cards : List Card
  secret : Nat
  retrieved_at : Option Nat
deriving DecidableEq

/-- Embedding of `state.rs` `Turn`: one card, the phase secret and the reveal timestamp. -/
structure Turn where
  card : Card
  secret : Nat
  retrieved_at : Option Nat
deriving DecidableEq

/-- Embedding of `state.rs` `River`: one card, the phase secret and the reveal timestamp. -/
structure River where
  card : Card
  secret : Nat
  retrieved_at : Option Nat
deriving DecidableEq

/-- Embedding of `state.rs` `CommunityCards`. -/
structure CommunityCards where
  flop : Flop
  turn : Turn
  river : River
deriving DecidableEq

/-- Embedding of `state.rs` `PokerTable`. -/
structure PokerTable where
  hand_ref : Nat
  players : List Player
  community_cards : CommunityCards
  showdown_retrieved_at : Option Nat
deriving DecidableEq

/-- The persistent contract storage visible to the embedded handlers: the
table keymap (`TABLES_STORE`) and the global random counter (`COUNTER_KEY`). -/
structure Storage where
  tables : Nat → Option PokerTable
  counter : Nat

/-- Embedding of `state.rs` `save_table`: stores a table under its id. -/
def saveTable (st : Storage) (table_id : Nat) (t : PokerTable) : Storage :=
  { st with tables := fun k => if k = table_id then some t else st.tables k }

/-- Embedding of `msg.rs` `ShowdownPlayer` (audit-log entry): username and rendered hand. -/
structure ShowdownPlayer where
  username : String
  hand : List String
deriving DecidableEq

/-- Embedding of `msg.rs` `LastHandLogResponse`: the audit record of the outgoing hand. -/
structure LastHandLogResponse where
  showdown_players : List ShowdownPlayer
  community_cards : List String
  flop_retrieved_at : Option Nat
  turn_retrieved_at : Option Nat
  river_retrieved_at : Option Nat
  showdown_retrieved_at : Option Nat
deriving DecidableEq

/-- Embedding of `msg.rs` `StartGameResponse`. -/
structure StartGameResponse where
  table_id : Nat
  hand_ref : Nat
  players : List String
deriving DecidableEq

/-- Embedding of `msg.rs` `CommunityCardsResponse`. -/
structure CommunityCardsResponse where
  table_id : Nat
  hand_ref : Nat
  game_state : GameState
  community_cards : List Card
deriving DecidableEq

/-- Embedding of `msg.rs` `ShowdownResponse`. -/
structure ShowdownResponse where
  table_id : Nat
  hand_ref : Nat
  players_cards : List (Nat × List Card)
  community_cards : Option (List Card)
deriving DecidableEq

/-- Embedding of `MIN_PLAYERS` from contract.rs. -/
def MIN_PLAYERS : Nat := 2

/-- Embedding of `MAX_PLAYERS` from contract.rs. -/
def MAX_PLAYERS : Nat := 9

/-- Embedding of `execute_handlers::validate_players` from contract.rs: rejects a player
count outside `MIN_PLAYERS..=MAX_PLAYERS` with `InvalidPlayerCount`, then
rejects duplicate public keys (the `HashSet` size check) with
`DuplicatePublicKeys`. -/
def validate_players (players_info : List StartGamePlayer) :
    Except Failure Unit :=
  if ¬ (MIN_PLAYERS ≤ players_info.length ∧ players_info.length ≤ MAX_PLAYERS) then
    .error (.contractError (.InvalidPlayerCount players_info.length))
  else if ¬ (players_info.map (·.public_key)).Nodup then
    .error (.contractError .DuplicatePublicKeys)
  else
    .ok ()

/-- The audit-record construction loop inside
`execute_handlers::create_previous_hand_log`: looks each requested player id
up in the outgoing table, panicking (`unwrap`) at the first id with no
matching player. -/
def buildShowdownPlayers (players : List Player) :
    List Nat → Except Failure (List ShowdownPlayer)
  | [] => .ok []
  | pid :: rest =>
    match players.find? (fun p => p.player_id == pid) with
    | none => .error .abort
    | some p =>
      match buildShowdownPlayers players rest with
      | .error e => .error e
      | .ok r => .ok ({ username := p.username, hand := p.hand.map Card.render } :: r)

/-- Embedding of `execute_handlers::create_previous_hand_log` from contract.rs: when a
table already exists at `table_id`, builds the audit record of the outgoing
hand (showdown players, rendered community cards, the four reveal
timestamps); otherwise yields `none`. -/
def create_previous_hand_log (st : Storage) (table_id : Nat)
    (showdown_player_ids : List Nat) :
    Except Failure (Option LastHandLogResponse) :=
  match st.tables table_id with
  | none => .ok none
  | some table =>
    match buildShowdownPlayers table.players showdown_player_ids with
    | .error e => .error e
    | .ok sp => .ok (some
        { showdown_players := sp
          community_cards :=
            table.community_cards.flop.cards.map Card.render
              ++ [table.community_cards.turn.card.render]
              ++ [table.community_cards.river.card.render]
          flop_retrieved_at := table.community_cards.flop.retrieved_at
          turn_retrieved_at := table.community_cards.turn.retrieved_at
          river_retrieved_at := table.community_cards.river.retrieved_at
          showdown_retrieved_at := table.showdown_retrieved_at })

/-- The deck set-up of `execute_handlers` (source name starts with `init`):
builds the canonical deck, derives one seed and shuffles. -/
def init_deck (hash : Nat → Nat → Nat → Nat) (fuel : Nat) (env : Env)
    (counter : Nat) : Except Failure (List Card × Nat) :=
  match generate_random_number env counter with
  | .error e => .error e
  | .ok (seed, c') =>
    match shuffle_deck hash fuel Deck.new seed with
    | none => .error .outOfFuel
    | some cards => .ok (cards, c')

/-- Embedding of `execute_handlers::distribute_player_cards` from contract.rs: pops two
cards from the end of the deck for each player in order; an empty deck would
be a Rust panic. -/
def distribute_player_cards :
    List Card → List StartGamePlayer →
    Except Failure (List (String × List Card) × List Card)
  | deck, [] => .ok ([], deck)
  | deck, p :: rest =>
    match popCard deck with
    | none => .error .abort
    | some (c1, d1) =>
      match popCard d1 with
      | none => .error .abort
      | some (c2, d2) =>
        match distribute_player_cards d2 rest with
        | .error e => .error e
        | .ok (acc, dfinal) => .ok ((p.public_key, [c1, c2]) :: acc, dfinal)

/-- Embedding of `execute_handlers::collect_cards` from contract.rs: pops `count` cards
from the end of the deck. -/
def collect_cards : List Card → Nat → Except Failure (List Card × List Card)
  | deck, 0 => .ok ([], deck)
  | deck, k + 1 =>
    match popCard deck with
    | none => .error .abort
    | some (c, d) =>
      match collect_cards d k with
      | .error e => .error e
      | .ok (cs, d') => .ok (c :: cs, d')

/-- Embedding of `execute_handlers::generate_community_cards` from contract.rs: derives
one secret and one additive share vector per community phase (flop, turn,
river, in that order), then pops three cards for the flop, one for the turn
and one for the river.  Returns the community cards, the list of
(secret, shares) pairs, the advanced counter and the remaining deck. -/
def generate_community_cards (env : Env) (counter : Nat) (deck : List Card)
    (player_count : Nat) :
    Except Failure (CommunityCards × List (Nat × List Nat) × Nat × List Card) :=
  match generate_random_number env counter with
  | .error e => .error e
  | .ok (s0, c0) =>
    match additive_secret_sharing env player_count s0 c0 with
    | .error e => .error e
    | .ok (sh0, c1) =>
      match generate_random_number env c1 with
      | .error e => .error e
      | .ok (s1, c2) =>
        match additive_secret_sharing env player_count s1 c2 with
        | .error e => .error e
        | .ok (sh1, c3) =>
          match generate_random_number env c3 with
          | .error e => .error e
          | .ok (s2, c4) =>
            match additive_secret_sharing env player_count s2 c4 with
            | .error e => .error e
            | .ok (sh2, c5) =>
              match collect_cards deck 3 with
              | .error e => .error e
              | .ok (flopCards, d1) =>
                match popCard d1 with
                | none => .error .abort
                | some (turnCard, d2) =>
                  match popCard d2 with
                  | none => .error .abort
                  | some (riverCard, d3) => .ok
                      ({ flop := { cards := flopCards, secret := s0, retrieved_at := none }
                         turn := { card := turnCard, secret := s1, retrieved_at := none }
                         river := { card := riverCard, secret := s2, retrieved_at := none } },
                       [(s0, sh0), (s1, sh1), (s2, sh2)], c5, d3)

/-- The `secrets[p].1[i]` indexing of `execute_handlers::create_players`;
out-of-bounds indexing is a Rust panic. -/
def getShare (secrets : List (Nat × List Nat)) (p i : Nat) :
    Except Failure Nat :=
  match secrets[p]? with
  | none => .error .abort
  | some pr =>
    match pr.2[i]? with
    | none => .error .abort
    | some v => .ok v

/-- The zipped, enumerated loop body of `execute_handlers::create_players`:
for the player at index `i`, derives a hand secret and reads slice `[i]` of
each phase's share vector.  The zip truncates at the shorter list, as Rust's
`zip` does. -/
def create_players_loop (env : Env) (secrets : List (Nat × List Nat)) :
    Nat → List StartGamePlayer → List (String × List Card) → Nat →
    Except Failure (List Player × Nat)
  | _, [], _, counter => .ok ([], counter)
  | _, _ :: _, [], counter => .ok ([], counter)
  | i, info :: restI, (_, cards) :: restC, counter =>
    match generate_random_number env counter with
    | .error e => .error e
    | .ok (hs, c') =>
      match getShare secrets 0 i with
      | .error e => .error e
      | .ok fs =>
        match getShare secrets 1 i with
        | .error e => .error e
        | .ok ts =>
          match getShare secrets 2 i with
          | .error e => .error e
          | .ok rs =>
            match create_players_loop env secrets (i + 1) restI restC c' with
            | .error e => .error e
            | .ok (rest, cf) => .ok
                ({ username := info.username
                   player_id := info.player_id
                   public_key := info.public_key
                   hand := cards
                   hand_secret := hs
                   flop_secret_share := fs
                   turn_secret_share := ts
                   river_secret_share := rs } :: rest, cf)

/-- Embedding of `execute_handlers::create_players` from contract.rs. -/
def create_players (env : Env) (players_info : List StartGamePlayer)
    (player_cards : List (String × List Card))
    (secrets : List (Nat × List Nat)) (counter : Nat) :
    Except Failure (List Player × Nat) :=
  create_players_loop env secrets 0 players_info player_cards counter

/-- Embedding of `execute_handlers::handle_start_game` from contract.rs: validates the
players, builds the audit log of any outgoing hand, loads the counter,
builds and shuffles the deck, deals two hole cards per player, generates the
community-card secrets and shares, creates the players, then persists the
new table and the advanced counter together and emits the public response. -/
def handle_start_game (hash : Nat → Nat → Nat → Nat) (fuel : Nat) (env : Env)
    (st : Storage) (table_id hand_ref : Nat)
    (players_info : List StartGamePlayer) (prev_ids : List Nat) :
    Except Failure (Storage × StartGameResponse × Option LastHandLogResponse) :=
  match validate_players players_info with
  | .error e => .error e
  | .ok _ =>
    match create_previous_hand_log st table_id prev_ids with
    | .error e => .error e
    | .ok prevLog =>
      match init_deck hash fuel env st.counter with
      | .error e => .error e
      | .ok (deck, c1) =>
        match distribute_player_cards deck players_info with
        | .error e => .error e
        | .ok (player_cards, deck2) =>
          match generate_community_cards env c1 deck2 players_info.length with
          | .error e => .error e
          | .ok (cc, secrets, c2, _) =>
            match create_players env players_info player_cards secrets c2 with
            | .error e => .error e
            | .ok (players, c3) =>
              let table : PokerTable :=
                { hand_ref := hand_ref
                  players := players
                  community_cards := cc
                  showdown_retrieved_at := none }
              .ok (saveTable { st with counter := c3 } table_id table,
                   { table_id := table_id, hand_ref := hand_ref
                     players := players.map (·.username) },
                   prevLog)

/-- Embedding of `execute_handlers::handle_community_cards` from contract.rs: loads the
table (`TableNotFound` when absent), rejects a phase whose reveal timestamp
is already set with `CardsAlreadyRetrieved`, rejects `PreFlop` with a
`GameStateError`, and otherwise stamps the phase with the block time,
persists the table and returns the phase's cards. -/
def handle_community_cards (env : Env) (st : Storage) (table_id : Nat)
    (game_state : GameState) :
    Except Failure (Storage × CommunityCardsResponse) :=
  match st.tables table_id with
  | none => .error (.contractError (.TableNotFound table_id))
  | some table =>
    match game_state with
    | .Flop =>
      if table.community_cards.flop.retrieved_at.isSome then
        .error (.contractError .CardsAlreadyRetrieved)
      else
        let table' := { table with community_cards :=
          { table.community_cards with flop :=
            { table.community_cards.flop with retrieved_at := some env.time } } }
        .ok (saveTable st table_id table',
             { table_id := table_id, hand_ref := table.hand_ref
               game_state := .Flop
               community_cards := table.community_cards.flop.cards })
    | .Turn =>
      if table.community_cards.turn.retrieved_at.isSome then
        .error (.contractError .CardsAlreadyRetrieved)
      else
        let table' := { table with community_cards :=
          { table.community_cards with turn :=
            { table.community_cards.turn with retrieved_at := some env.time } } }
        .ok (saveTable st table_id table',
             { table_id := table_id, hand_ref := table.hand_ref
               game_state := .Turn
               community_cards := [table.community_cards.turn.card] })
    | .River =>
      if table.community_cards.river.retrieved_at.isSome then
        .error (.contractError .CardsAlreadyRetrieved)
      else
        let table' := { table with community_cards :=
          { table.community_cards with river :=
            { table.community_cards.river with retrieved_at := some env.time } } }
        .ok (saveTable st table_id table',
             { table_id := table_id, hand_ref := table.hand_ref
               game_state := .River
               community_cards := [table.community_cards.river.card] })
    | .PreFlop =>
      .error (.contractError
        (.GameStateError "distribute_community_cards" table_id (some .PreFlop)))

/-- Embedding of `execute_handlers::handle_all_in_showdown` from contract.rs: the extra
community cards published at showdown, as a function of the street already
reached. -/
def handle_all_in_showdown (community_cards : CommunityCards)
    (game_state : GameState) : Option (List Card) :=
  match game_state with
  | .PreFlop => some (community_cards.flop.cards
      ++ [community_cards.turn.card, community_cards.river.card])
  | .Flop => some [community_cards.turn.card, community_cards.river.card]
  | .Turn => some [community_cards.river.card]
  | .River => none

/-- The player-lookup loop of `execute_handlers::handle_showdown`: collects
`(player_id, hand)` pairs, failing with `PlayerNotFound` at the first
missing id. -/
def findPlayersHands (table_players : List Player) (table_id : Nat) :
    List Nat → Except Failure (List (Nat × List Card))
  | [] => .ok []
  | pid :: rest =>
    match table_players.find? (fun p => p.player_id == pid) with
    | none => .error (.contractError (.PlayerNotFound table_id pid))
    | some p =>
      match findPlayersHands table_players table_id rest with
      | .error e => .error e
      | .ok r => .ok ((p.player_id, p.hand) :: r)

/-- Embedding of `execute_handlers::handle_showdown` from contract.rs: loads the table,
rejects a second showdown with `CardsAlreadyRetrieved`, collects the
requested players' hands, computes the all-in community cards, stamps the
showdown timestamp and persists the table. -/
def handle_showdown (env : Env) (st : Storage) (table_id : Nat)
    (game_state : GameState) (showdown_player_ids : List Nat) :
    Except Failure (Storage × ShowdownResponse) :=
  match st.tables table_id with
  | none => .error (.contractError (.TableNotFound table_id))
  | some table =>
    if table.showdown_retrieved_at.isSome then
      .error (.contractError .CardsAlreadyRetrieved)
    else
      match findPlayersHands table.players table_id showdown_player_ids with
      | .error e => .error e
      | .ok player_hands =>
        let table' := { table with showdown_retrieved_at := some env.time }
        .ok (saveTable st table_id table',
             { table_id := table_id, hand_ref := table.hand_ref
               players_cards := player_hands
               community_cards :=
                 handle_all_in_showdown table.community_cards game_state })

/-! ### Wrapping-arithmetic lemmas -/

lemma u64Mod_pos : 0 < u64Mod := by norm_num [u64Mod]

lemma wrapAdd_lt (a b : Nat) : wrapAdd a b < u64Mod := Nat.mod_lt _ u64Mod_pos

lemma wrapSub_lt (a b : Nat) : wrapSub a b < u64Mod := Nat.mod_lt _ u64Mod_pos

lemma foldl_wrapAdd_eq (l : List Nat) :
    ∀ a : Nat, a < u64Mod → l.foldl wrapAdd a = (a + l.sum) % u64Mod := by
  induction l with
  | nil => intro a ha; simp [Nat.mod_eq_of_lt ha]
  | cons x t ih =>
    intro a ha
    simp only [List.foldl_cons, List.sum_cons]
    rw [ih (wrapAdd a x) (wrapAdd_lt a x)]
    simp [wrapAdd, Nat.mod_add_mod, Nat.add_assoc]

lemma foldl_wrapAdd_lt (l : List Nat) (a : Nat) (ha : a < u64Mod) :
    l.foldl wrapAdd a < u64Mod := by
  rw [foldl_wrapAdd_eq l a ha]; exact Nat.mod_lt _ u64Mod_pos

lemma wrap_reconstruct (s SA : Nat) (hs : s < u64Mod) (hSA : SA < u64Mod) :
    wrapAdd SA (wrapSub s SA) = s := by
  unfold wrapAdd wrapSub
  rw [Nat.mod_eq_of_lt hSA, Nat.add_mod_mod]
  have h2 : SA + (s + (u64Mod - SA)) = s + u64Mod := by omega
  rw [h2, Nat.add_mod_right, Nat.mod_eq_of_lt hs]

lemma foldl_wrapAdd_reconstruct (A : List Nat) (s : Nat) (hs : s < u64Mod) :
    List.foldl wrapAdd 0 (A ++ [wrapSub s (List.foldl wrapAdd 0 A)]) = s := by
  rw [List.foldl_append]
  simp only [List.foldl_cons, List.foldl_nil]
  exact wrap_reconstruct s _ hs (foldl_wrapAdd_lt A 0 u64Mod_pos)

/-! ### The random-share stream drawn by `shareLoop` -/

/-- The shares drawn by `shareLoop` when the oracle is `f` and the counter
starts at `c`: the `k` values `f c % 2^64, f (c+1) % 2^64, ...`. -/
def genShares (f : Nat → Nat) (c k : Nat) : List Nat :=
  (List.range k).map fun t => f (c + t) % u64Mod

lemma genShares_succ (f : Nat → Nat) (c k : Nat) :
    genShares f c (k + 1) = f c % u64Mod :: genShares f (c + 1) k := by
  unfold genShares
  rw [List.range_succ_eq_map]
  simp only [List.map_cons, Nat.add_zero, List.map_map]
  congr 1
  apply List.map_congr_left
  intro t _
  simp only [Function.comp_apply]
  congr 2
  omega

lemma genShares_length (f : Nat → Nat) (c k : Nat) :
    (genShares f c k).length = k := by simp [genShares]

lemma genShares_mem_lt (f : Nat → Nat) (c k x : Nat)
    (hx : x ∈ genShares f c k) : x < u64Mod := by
  simp only [genShares, List.mem_map] at hx
  obtain ⟨t, -, rfl⟩ := hx
  exact Nat.mod_lt _ u64Mod_pos

lemma generate_random_number_eq (env : Env) (f : Nat → Nat)
    (henv : env.randomOracle = some f) (c : Nat) :
    generate_random_number env c = .ok (f c % u64Mod, c + 1) := by
  simp [generate_random_number, henv]

lemma shareLoop_eq (env : Env) (f : Nat → Nat)
    (henv : env.randomOracle = some f) :
    ∀ (k c : Nat) (acc : List Nat) (sum : Nat),
      shareLoop env k c acc sum =
        .ok (acc ++ genShares f c k,
             List.foldl wrapAdd sum (genShares f c k), c + k) := by
  intro k
  induction k with
  | zero => intro c acc sum; simp [shareLoop, genShares]
  | succ k ih =>
    intro c acc sum
    simp only [shareLoop, generate_random_number_eq env f henv c]
    rw [ih (c + 1) (acc ++ [f c % u64Mod]) (wrapAdd sum (f c % u64Mod))]
    rw [genShares_succ]
    simp only [List.append_assoc, List.singleton_append, List.foldl_cons]
    have : c + 1 + k = c + (k + 1) := by omega
    rw [this]

/-- Characterisation of a successful `additive_secret_sharing` run: the
shares it returns, their number, their `u64` range and their wrapping sum. -/
lemma additive_ok_spec (env : Env) (f : Nat → Nat)
    (henv : env.randomOracle = some f) (n secret c : Nat)
    (hn : 1 ≤ n) (hs : secret < u64Mod) :
    ∃ shares,
      additive_secret_sharing env n secret c = .ok (shares, c + (n - 1)) ∧
      shares.length = n ∧
      (∀ x ∈ shares, x < u64Mod) ∧
      List.foldl wrapAdd 0 shares = secret := by
  refine ⟨genShares f c (n - 1) ++
    [wrapSub secret (List.foldl wrapAdd 0 (genShares f c (n - 1)))], ?_, ?_, ?_, ?_⟩
  · unfold additive_secret_sharing
    rw [shareLoop_eq env f henv (n - 1) c [] 0]
    simp
  · simp [genShares_length]; omega
  · intro x hx
    rw [List.mem_append] at hx
    rcases hx with hx | hx
    · exact genShares_mem_lt f c (n - 1) x hx
    · rw [List.mem_singleton] at hx
      subst hx
      exact wrapSub_lt _ _
  · exact foldl_wrapAdd_reconstruct _ secret hs

/-- C1: for every secret `s : u64`, every player count `n` with
`2 ≤ n ≤ 9`, and every possible sequence of random values drawn for the
first `n - 1` shares (the oracle `f`), `additive_secret_sharing` returns a
vector of exactly `n` `u64` values whose wrapping (mod `2^64`) sum equals
`s` exactly. -/
theorem additive_sharing_sum (env : Env) (f : Nat → Nat)
    (henv : env.randomOracle = some f) (n secret counter : Nat)
    (hn2 : 2 ≤ n) (hn9 : n ≤ 9) (hs : secret < u64Mod) :
    ∃ shares,
      additive_secret_sharing env n secret counter = .ok (shares, counter + (n - 1)) ∧
      shares.length = n ∧
      (∀ x ∈ shares, x < u64Mod) ∧
      List.foldl wrapAdd 0 shares = secret :=
  additive_ok_spec env f henv n secret counter (by omega) hs

/-! ### Concrete inputs used by the witnesses -/

/-- A concrete all-zero random oracle. -/
def fZero : Nat → Nat := fun _ => 0

/-- A concrete all-zero shuffle hash oracle. -/
def hashZero : Nat → Nat → Nat → Nat := fun _ _ _ => 0

/-- A concrete environment whose block entropy is present. -/
def envEx : Env := { randomOracle := some fZero, time := 11 }

/-- A concrete environment whose block entropy is absent. -/
def envNoEntropy : Env := { randomOracle := none, time := 11 }

theorem additive_sharing_sum_witness :
    ∃ shares,
      additive_secret_sharing envEx 2 7 0 = .ok (shares, 0 + (2 - 1)) ∧
      shares.length = 2 ∧
      (∀ x ∈ shares, x < u64Mod) ∧
      List.foldl wrapAdd 0 shares = 7 :=
  additive_sharing_sum envEx fZero rfl 2 7 0 (by decide) (by decide)
    (by norm_num [u64Mod])

/-! ### Shuffle permutation lemmas (C2) -/

lemma cons_set_perm {α : Type _} :
    ∀ (t : List α) (k : Nat) (x a : α),
      t[k]? = some a → (a :: t.set k x).Perm (x :: t) := by
  intro t
  induction t with
  | nil => intro k x a h; simp at h
  | cons y s ih =>
    intro k x a h
    cases k with
    | zero =>
      simp at h
      subst h
      simpa [List.set] using List.Perm.swap x y s
    | succ k =>
      simp at h
      simp only [List.set]
      exact ((List.Perm.swap y a _).trans ((ih k x a h).cons y)).trans
        (List.Perm.swap x y s)

lemma set_set_perm {α : Type _} :
    ∀ (l : List α) (i j : Nat) (a b : α),
      l[i]? = some a → l[j]? = some b → ((l.set i b).set j a).Perm l := by
  intro l
  induction l with
  | nil => intro i j a b hi _; simp at hi
  | cons x t ih =>
    intro i j a b hi hj
    cases i with
    | zero =>
      simp at hi
      subst hi
      cases j with
      | zero => simp [List.set]
      | succ k =>
        simp at hj
        simpa [List.set] using cons_set_perm t k x b hj
    | succ m =>
      simp at hi
      cases j with
      | zero =>
        simp at hj
        subst hj
        simpa [List.set] using cons_set_perm t m x a hi
      | succ k =>
        simp at hj
        simp only [List.set]
        exact (ih m k a b hi hj).cons x

lemma swapList_perm (l : List Card) (i j : Nat) : (swapList l i j).Perm l := by
  unfold swapList
  split
  · next a b hi hj => exact set_set_perm l i j a b hi hj
  · exact List.Perm.refl l

lemma shuffleSteps_perm (hash : Nat → Nat → Nat → Nat) (fuel seed : Nat) :
    ∀ (n : Nat) (cards out : List Card),
      shuffleSteps hash fuel seed n cards = some out → out.Perm cards := by
  intro n
  induction n with
  | zero =>
    intro cards out h
    simp only [shuffleSteps, Option.some.injEq] at h
    subst h
    exact List.Perm.refl _
  | succ i ih =>
    intro cards out h
    simp only [shuffleSteps] at h
    split at h
    · exact absurd h (by simp)
    · next j _ => exact (ih _ out h).trans (swapList_perm cards (i + 1) j)

set_option maxRecDepth 10000 in
/-- C2: for every seed (and every behaviour of the SHA-256 oracle and every
fuel bound under which the rejection sampling terminates), `shuffle_deck`
applied to the canonical 52-card deck produces a permutation of it: the
output multiset equals the canonical deck's multiset — no card omitted, no
card duplicated — and the length is still 52. -/
theorem shuffle_deck_permutation (hash : Nat → Nat → Nat → Nat)
    (fuel seed : Nat) (out : List Card)
    (h : shuffle_deck hash fuel Deck.new seed = some out) :
    out.Perm Deck.new ∧ out.length = 52 := by
  have hp : out.Perm Deck.new := shuffleSteps_perm hash fuel seed _ _ _ h
  refine ⟨hp, ?_⟩
  rw [hp.length_eq]
  decide

/-- The concrete shuffled deck produced by the all-zero hash oracle at seed
12345 (each position swaps with index 0). -/
def shuffledEx : List Card := (shuffle_deck hashZero 1 Deck.new 12345).getD []

set_option maxRecDepth 100000 in
theorem shuffle_deck_permutation_witness :
    shuffle_deck hashZero 1 Deck.new 12345 = some shuffledEx ∧
    shuffledEx.Perm Deck.new ∧ shuffledEx.length = 52 :=
  ⟨by decide,
   (shuffle_deck_permutation hashZero 1 12345 shuffledEx (by decide)).1,
   (shuffle_deck_permutation hashZero 1 12345 shuffledEx (by decide)).2⟩

/-! ### The spec's reference index-selection procedure (C3) -/

/-- The swap-index selection written from the spec's words (spec section
4.2): compute `threshold = floor(u64::MAX / (i+1)) * (i+1)`; the candidates
are `hash(seed, i, attempt)` (the hash's first 8 bytes little-endian) for
`attempt = 0, 1, 2, ...`; accept the first candidate strictly below the
threshold and take `candidate % (i+1)` as the swap index `j`.  The search is
expressed as `find?` over the first `fuel` attempt numbers. -/
def specSampleIndex (hash : Nat → Nat → Nat → Nat) (seed i fuel : Nat) :
    Option Nat :=
  ((List.range fuel).find? (fun a =>
      decide (hash seed i a % u64Mod < (u64Max / (i + 1)) * (i + 1)))).map
    (fun a => hash seed i a % u64Mod % (i + 1))

lemma sampleIndex_eq_find (hash : Nat → Nat → Nat → Nat) (seed i : Nat) :
    ∀ (fuel a : Nat),
      sampleIndex hash seed i fuel a =
        ((List.range' a fuel).find? (fun t =>
            decide (hash seed i t % u64Mod < (u64Max / (i + 1)) * (i + 1)))).map
          (fun t => hash seed i t % u64Mod % (i + 1)) := by
  intro fuel
  induction fuel with
  | zero => intro a; simp [sampleIndex]
  | succ fuel ih =>
    intro a
    rw [List.range'_succ]
    simp only [sampleIndex, List.find?_cons]
    by_cases hcond : hash seed i a % u64Mod < (u64Max / (i + 1)) * (i + 1)
    · simp [hcond]
    · simp only [hcond, if_neg, decide_eq_true_eq, ite_false, decide_False]
      rw [ih (a + 1)]

lemma sampleIndex_eq_spec (hash : Nat → Nat → Nat → Nat)
    (seed i fuel : Nat) :
    sampleIndex hash seed i fuel 0 = specSampleIndex hash seed i fuel := by
  rw [sampleIndex_eq_find, specSampleIndex, List.range_eq_range']

/-- C3: at every position `i` (visited from the top of the deck down to 1)
`shuffle_deck` chooses the swap index by the spec's reference
rejection-sampling procedure — threshold `floor(u64::MAX/(i+1)) * (i+1)`,
candidates hashed from `(seed, i, attempt)` with the attempt counter
starting at 0 and incremented on each rejection, first candidate strictly
below the threshold accepted, `j = candidate % (i+1)` — and then swaps
positions `i` and `j`; moreover the function is deterministic in the seed. -/
theorem shuffle_follows_spec :
    (∀ (hash : Nat → Nat → Nat → Nat) (fuel seed i : Nat) (cards : List Card),
      shuffleSteps hash fuel seed (i + 1) cards =
        match specSampleIndex hash seed (i + 1) fuel with
        | none => none
        | some j => shuffleSteps hash fuel seed i (swapList cards (i + 1) j)) ∧
    (∀ (hash : Nat → Nat → Nat → Nat) (fuel : Nat) (cards : List Card)
      (seed1 seed2 : Nat), seed1 = seed2 →
      shuffle_deck hash fuel cards seed1 = shuffle_deck hash fuel cards seed2) := by
  constructor
  · intro hash fuel seed i cards
    rw [shuffleSteps, sampleIndex_eq_spec]
  · intro hash fuel cards seed1 seed2 h
    rw [h]

theorem shuffle_follows_spec_witness :
    (shuffleSteps hashZero 1 12345 4 Deck.new =
      match specSampleIndex hashZero 12345 4 1 with
      | none => none
      | some j => shuffleSteps hashZero 1 12345 3 (swapList Deck.new 4 j)) ∧
    shuffle_deck hashZero 1 Deck.new 12345 = shuffle_deck hashZero 1 Deck.new 12345 :=
  ⟨shuffle_follows_spec.1 hashZero 1 12345 3 Deck.new,
   shuffle_follows_spec.2 hashZero 1 Deck.new 12345 12345 rfl⟩

/-! ### Inversion lemmas for the StartGame pipeline -/

lemma validate_players_count_err (info : List StartGamePlayer)
    (h : ¬ (MIN_PLAYERS ≤ info.length ∧ info.length ≤ MAX_PLAYERS)) :
    validate_players info =
      .error (.contractError (.InvalidPlayerCount info.length)) := by
  simp [validate_players, h]

lemma validate_players_dup_err (info : List StartGamePlayer)
    (h1 : MIN_PLAYERS ≤ info.length ∧ info.length ≤ MAX_PLAYERS)
    (h2 : ¬ (info.map (·.public_key)).Nodup) :
    validate_players info = .error (.contractError .DuplicatePublicKeys) := by
  simp [validate_players, h1, h2]

lemma validate_players_ok_inv (info : List StartGamePlayer)
    (h : validate_players info = .ok ()) :
    MIN_PLAYERS ≤ info.length ∧ info.length ≤ MAX_PLAYERS ∧
      (info.map (·.public_key)).Nodup := by
  by_cases h1 : MIN_PLAYERS ≤ info.length ∧ info.length ≤ MAX_PLAYERS
  · by_cases h2 : (info.map (·.public_key)).Nodup
    · exact ⟨h1.1, h1.2, h2⟩
    · rw [validate_players_dup_err info h1 h2] at h; exact absurd h (by simp)
  · rw [validate_players_count_err info h1] at h; exact absurd h (by simp)

lemma validate_players_ok_of (info : List StartGamePlayer)
    (h1 : MIN_PLAYERS ≤ info.length) (h2 : info.length ≤ MAX_PLAYERS)
    (h3 : (info.map (·.public_key)).Nodup) :
    validate_players info = .ok () := by
  simp [validate_players, h1, h2, h3]

lemma collect_cards_ok_length :
    ∀ (k : Nat) (deck cs d' : List Card),
      collect_cards deck k = .ok (cs, d') → cs.length = k := by
  intro k
  induction k with
  | zero =>
    intro deck cs d' h
    simp only [collect_cards, Except.ok.injEq, Prod.mk.injEq] at h
    rw [← h.1]
    rfl
  | succ k ih =>
    intro deck cs d' h
    simp only [collect_cards] at h
    split at h
    · exact absurd h (by simp)
    · split at h
      · exact absurd h (by simp)
      · next cs' d'' hrec =>
        simp only [Except.ok.injEq, Prod.mk.injEq] at h
        rw [← h.1]
        simp [ih _ _ _ hrec]

lemma distribute_player_cards_ok_length :
    ∀ (info : List StartGamePlayer) (deck : List Card)
      (pcs : List (String × List Card)) (d' : List Card),
      distribute_player_cards deck info = .ok (pcs, d') →
        pcs.length = info.length := by
  intro info
  induction info with
  | nil =>
    intro deck pcs d' h
    simp only [distribute_player_cards, Except.ok.injEq, Prod.mk.injEq] at h
    rw [← h.1]
    rfl
  | cons p rest ih =>
    intro deck pcs d' h
    simp only [distribute_player_cards] at h
    split at h
    · exact absurd h (by simp)
    · split at h
      · exact absurd h (by simp)
      · split at h
        · exact absurd h (by simp)
        · next acc dfinal hrec =>
          simp only [Except.ok.injEq, Prod.mk.injEq] at h
          rw [← h.1]
          simp [ih _ _ _ hrec]

lemma generate_random_number_ok_inv (env : Env) (c v c' : Nat)
    (h : generate_random_number env c = .ok (v, c')) :
    c' = c + 1 ∧ v < u64Mod ∧
      ∃ f, env.randomOracle = some f ∧ v = f c % u64Mod := by
  unfold generate_random_number at h
  split at h
  · exact absurd h (by simp)
  · next f hf =>
    simp only [Except.ok.injEq, Prod.mk.injEq] at h
    exact ⟨h.2.symm, h.1 ▸ Nat.mod_lt _ u64Mod_pos, f, hf, h.1.symm⟩

lemma getShare_ok_inv (secrets : List (Nat × List Nat)) (p i v : Nat)
    (h : getShare secrets p i = .ok v) :
    ∃ pr, secrets[p]? = some pr ∧ pr.2[i]? = some v := by
  unfold getShare at h
  split at h
  · exact absurd h (by simp)
  · next pr hpr =>
    split at h
    · exact absurd h (by simp)
    · next w hw =>
      simp only [Except.ok.injEq] at h
      exact ⟨pr, hpr, h ▸ hw⟩

lemma create_players_loop_inv (env : Env) (secrets : List (Nat × List Nat)) :
    ∀ (info : List StartGamePlayer) (i : Nat)
      (cards : List (String × List Card)) (c : Nat)
      (ps : List Player) (c' : Nat),
      create_players_loop env secrets i info cards c = .ok (ps, c') →
        ps.length = min info.length cards.length ∧
        c' = c + ps.length ∧
        (∀ (k : Nat) (q : Player), ps[k]? = some q →
          getShare secrets 0 (i + k) = .ok q.flop_secret_share ∧
          getShare secrets 1 (i + k) = .ok q.turn_secret_share ∧
          getShare secrets 2 (i + k) = .ok q.river_secret_share) := by
  intro info
  induction info with
  | nil =>
    intro i cards c ps c' h
    simp only [create_players_loop, Except.ok.injEq, Prod.mk.injEq] at h
    obtain ⟨h1, h2⟩ := h
    subst h2
    refine ⟨by simp [← h1], by simp [← h1], ?_⟩
    intro k q hk
    rw [← h1] at hk
    simp at hk
  | cons p rest ih =>
    intro i cards c ps c' h
    match cards with
    | [] =>
      simp only [create_players_loop, Except.ok.injEq, Prod.mk.injEq] at h
      obtain ⟨h1, h2⟩ := h
      subst h2
      refine ⟨by simp [← h1], by simp [← h1], ?_⟩
      intro k q hk
      rw [← h1] at hk
      simp at hk
    | (_, hd) :: restC =>
      simp only [create_players_loop] at h
      split at h
      · exact absurd h (by simp)
      · next hs c2 hgen =>
        split at h
        · exact absurd h (by simp)
        · next fs hfs =>
          split at h
          · exact absurd h (by simp)
          · next ts hts =>
            split at h
            · exact absurd h (by simp)
            · next rs hrs =>
              split at h
              · exact absurd h (by simp)
              · next tail cf hrec =>
                simp only [Except.ok.injEq, Prod.mk.injEq] at h
                obtain ⟨h1, h2⟩ := h
                subst h2
                obtain ⟨hl, hc, hsh⟩ := ih (i + 1) restC _ tail cf hrec
                refine ⟨?_, ?_, ?_⟩
                · rw [← h1]
                  simp [hl, Nat.succ_min_succ]
                · have hc2 : c2 = c + 1 :=
                    (generate_random_number_ok_inv env c hs c2 hgen).1
                  rw [← h1]
                  simp only [List.length_cons]
                  omega
                · intro k q hk
                  rw [← h1] at hk
                  cases k with
                  | zero =>
                    simp only [List.getElem?_cons_zero, Option.some.injEq] at hk
                    subst hk
                    exact ⟨by simpa using hfs, by simpa using hts, by simpa using hrs⟩
                  | succ k =>
                    simp only [List.getElem?_cons_succ] at hk
                    have := hsh k q hk
                    have harith : i + (k + 1) = i + 1 + k := by omega
                    rw [harith]
                    exact this

lemma init_deck_ok_inv (hash : Nat → Nat → Nat → Nat) (fuel : Nat)
    (env : Env) (c : Nat) (deck : List Card) (c' : Nat)
    (h : init_deck hash fuel env c = .ok (deck, c')) :
    c' = c + 1 ∧ ∃ f, env.randomOracle = some f := by
  unfold init_deck at h
  split at h
  · exact absurd h (by simp)
  · next seed c0 hgen =>
    obtain ⟨hc0, -, f, hf, -⟩ := generate_random_number_ok_inv env c seed c0 hgen
    split at h
    · exact absurd h (by simp)
    · simp only [Except.ok.injEq, Prod.mk.injEq] at h
      exact ⟨h.2 ▸ hc0, f, hf⟩

lemma generate_community_cards_ok_inv (env : Env) (c : Nat)
    (deck : List Card) (n : Nat) (hn : 1 ≤ n) (cc : CommunityCards)
    (secrets : List (Nat × List Nat)) (c2 : Nat) (d3 : List Card)
    (h : generate_community_cards env c deck n = .ok (cc, secrets, c2, d3)) :
    ∃ sh0 sh1 sh2,
      secrets =
        [(cc.flop.secret, sh0), (cc.turn.secret, sh1), (cc.river.secret, sh2)] ∧
      sh0.length = n ∧ sh1.length = n ∧ sh2.length = n ∧
      List.foldl wrapAdd 0 sh0 = cc.flop.secret ∧
      List.foldl wrapAdd 0 sh1 = cc.turn.secret ∧
      List.foldl wrapAdd 0 sh2 = cc.river.secret ∧
      cc.flop.cards.length = 3 ∧
      cc.flop.retrieved_at = none ∧ cc.turn.retrieved_at = none ∧
      cc.river.retrieved_at = none ∧
      c2 = c + 3 * n := by
  unfold generate_community_cards at h
  split at h
  · exact absurd h (by simp)
  · next s0 c0 hgen0 =>
    obtain ⟨hc0, hs0lt, f0, henv0, -⟩ :=
      generate_random_number_ok_inv env c s0 c0 hgen0
    split at h
    · exact absurd h (by simp)
    · next sh0 c1 hadd0 =>
      obtain ⟨A0, hA0eq, hA0len, -, hA0sum⟩ :=
        additive_ok_spec env f0 henv0 n s0 c0 hn hs0lt
      rw [hA0eq] at hadd0
      simp only [Except.ok.injEq, Prod.mk.injEq] at hadd0
      obtain ⟨rfl, hc1⟩ := hadd0
      split at h
      · exact absurd h (by simp)
      · next s1 c2a hgen1 =>
        obtain ⟨hc2a, hs1lt, f1, henv1, -⟩ :=
          generate_random_number_ok_inv env c1 s1 c2a hgen1
        split at h
        · exact absurd h (by simp)
        · next sh1 c3 hadd1 =>
          obtain ⟨A1, hA1eq, hA1len, -, hA1sum⟩ :=
            additive_ok_spec env f1 henv1 n s1 c2a hn hs1lt
          rw [hA1eq] at hadd1
          simp only [Except.ok.injEq, Prod.mk.injEq] at hadd1
          obtain ⟨rfl, hc3⟩ := hadd1
          split at h
          · exact absurd h (by simp)
          · next s2 c4 hgen2 =>
            obtain ⟨hc4, hs2lt, f2, henv2, -⟩ :=
              generate_random_number_ok_inv env c3 s2 c4 hgen2
            split at h
            · exact absurd h (by simp)
            · next sh2 c5 hadd2 =>
              obtain ⟨A2, hA2eq, hA2len, -, hA2sum⟩ :=
                additive_ok_spec env f2 henv2 n s2 c4 hn hs2lt
              rw [hA2eq] at hadd2
              simp only [Except.ok.injEq, Prod.mk.injEq] at hadd2
              obtain ⟨rfl, hc5⟩ := hadd2
              split at h
              · exact absurd h (by simp)
              · next flopCards d1 hcol =>
                split at h
                · exact absurd h (by simp)
                · next turnCard d2 hpop1 =>
                  split at h
                  · exact absurd h (by simp)
                  · next riverCard d3a hpop2 =>
                    simp only [Except.ok.injEq, Prod.mk.injEq] at h
                    obtain ⟨hcc, hsec, hc2, -⟩ := h
                    subst hcc
                    subst hsec
                    refine ⟨A0, A1, A2, by simp, hA0len, hA1len, hA2len,
                      by simpa using hA0sum, by simpa using hA1sum,
                      by simpa using hA2sum,
                      by simpa using collect_cards_ok_length 3 deck _ _ hcol,
                      by simp, by simp, by simp, ?_⟩
                    omega

/-- Pointwise agreement of a projection with a list of the same length
forces the mapped list to be that list. -/
lemma map_share_eq (ps : List Player) (A : List Nat) (g : Player → Nat)
    (hlen : ps.length = A.length)
    (hpt : ∀ (k : Nat) (q : Player), ps[k]? = some q → A[k]? = some (g q)) :
    ps.map g = A := by
  apply List.ext_getElem?
  intro k
  rw [List.getElem?_map]
  cases hq : ps[k]? with
  | none =>
    have hk : ps.length ≤ k := by
      by_contra hlt
      push_neg at hlt
      exact absurd hq (by simp [List.getElem?_eq_getElem hlt])
    have : A[k]? = none := by
      rw [List.getElem?_eq_none_iff]
      omega
    simp [this]
  | some q =>
    simp [hpt k q hq]

/-- Everything the claims need from a successful `handle_start_game` run:
the table stored at `table_id`, its player count, its per-phase share sums,
the flop size, the fresh reveal flags, and the counter advance. -/
lemma handle_start_game_ok_spec (hash : Nat → Nat → Nat → Nat) (fuel : Nat)
    (env : Env) (st : Storage) (tid href : Nat)
    (info : List StartGamePlayer) (prev : List Nat)
    (st' : Storage) (resp : StartGameResponse)
    (log : Option LastHandLogResponse)
    (h : handle_start_game hash fuel env st tid href info prev =
      .ok (st', resp, log)) :
    ∃ t, st'.tables tid = some t ∧
      st'.counter = st.counter + (4 * info.length + 1) ∧
      t.players.length = info.length ∧
      t.community_cards.flop.cards.length = 3 ∧
      t.community_cards.flop.retrieved_at = none ∧
      t.community_cards.turn.retrieved_at = none ∧
      t.community_cards.river.retrieved_at = none ∧
      t.showdown_retrieved_at = none ∧
      List.foldl wrapAdd 0 (t.players.map (·.flop_secret_share)) =
        t.community_cards.flop.secret ∧
      List.foldl wrapAdd 0 (t.players.map (·.turn_secret_share)) =
        t.community_cards.turn.secret ∧
      List.foldl wrapAdd 0 (t.players.map (·.river_secret_share)) =
        t.community_cards.river.secret := by
  unfold handle_start_game at h
  split at h
  · exact absurd h (by simp)
  · next hval =>
    split at h
    · exact absurd h (by simp)
    · next prevLog hprev =>
      split at h
      · exact absurd h (by simp)
      · next deck c1 hinit =>
        split at h
        · exact absurd h (by simp)
        · next pcards deck2 hdist =>
          split at h
          · exact absurd h (by simp)
          · next cc secrets c2 deck3 hgcc =>
            split at h
            · exact absurd h (by simp)
            · next players c3 hcp =>
              simp only [Except.ok.injEq, Prod.mk.injEq] at h
              obtain ⟨hst, hresp, hlog⟩ := h
              obtain ⟨hmin, hmax, -⟩ := validate_players_ok_inv info hval
              have hn1 : 1 ≤ info.length := by
                have : MIN_PLAYERS = 2 := rfl
                omega
              obtain ⟨hc1, -⟩ :=
                init_deck_ok_inv hash fuel env st.counter deck c1 hinit
              have hpl : pcards.length = info.length :=
                distribute_player_cards_ok_length info deck pcards deck2 hdist
              obtain ⟨A0, A1, A2, hsec, hA0len, hA1len, hA2len,
                hA0sum, hA1sum, hA2sum, hflop3, hfr, htr, hrr, hc2⟩ :=
                generate_community_cards_ok_inv env c1 deck2 info.length hn1
                  cc secrets c2 deck3 hgcc
              obtain ⟨hplen, hc3, hwire⟩ :=
                create_players_loop_inv env secrets info 0 pcards c2 players c3 hcp
              have hplen' : players.length = info.length := by
                rw [hplen, hpl]
                omega
              have hshare : ∀ (phase : Nat) (A : List Nat) (g : Player → Nat),
                  secrets[phase]? = some ((match phase with
                    | 0 => cc.flop.secret
                    | 1 => cc.turn.secret
                    | _ => cc.river.secret), A) →
                  A.length = info.length →
                  (∀ (k : Nat) (q : Player), players[k]? = some q →
                    getShare secrets phase k = .ok (g q)) →
                  players.map g = A := by
                intro phase A g hph hAlen hg
                refine map_share_eq players A g (by omega) ?_
                intro k q hk
                obtain ⟨pr, hpr, hprv⟩ := getShare_ok_inv secrets phase k (g q) (hg k q hk)
                rw [hph] at hpr
                simp only [Option.some.injEq] at hpr
                rw [← hpr] at hprv
                exact hprv
              have hw0 : players.map (·.flop_secret_share) = A0 := by
                refine hshare 0 A0 _ (by rw [hsec]; rfl) hA0len ?_
                intro k q hk
                simpa using (hwire k q hk).1
              have hw1 : players.map (·.turn_secret_share) = A1 := by
                refine hshare 1 A1 _ (by rw [hsec]; rfl) hA1len ?_
                intro k q hk
                simpa using (hwire k q hk).2.1
              have hw2 : players.map (·.river_secret_share) = A2 := by
                refine hshare 2 A2 _ (by rw [hsec]; rfl) hA2len ?_
                intro k q hk
                simpa using (hwire k q hk).2.2
              refine ⟨{ hand_ref := href, players := players,
                        community_cards := cc, showdown_retrieved_at := none },
                ?_, ?_, hplen', hflop3, hfr, htr, hrr, rfl, ?_, ?_, ?_⟩
              · rw [← hst]
                simp [saveTable]
              · rw [← hst]
                simp only [saveTable]
                omega
              · simpa [hw0] using hA0sum
              · simpa [hw1] using hA1sum
              · simpa [hw2] using hA2sum

/-! ### C4 and C10: properties of a successful StartGame -/

/-- C4: for every table produced by a successful StartGame with `n`
players, and for each phase among flop, turn and river, the wrapping
(mod `2^64`) sum over all `n` players of that player's stored share for the
phase equals the phase secret stored in the table's community cards; and
`create_players` hands player `i` exactly element `[i]` of each phase's
share vector. -/
theorem start_game_share_sums :
    (∀ (hash : Nat → Nat → Nat → Nat) (fuel : Nat) (env : Env) (st : Storage)
      (tid href : Nat) (info : List StartGamePlayer) (prev : List Nat)
      (st' : Storage) (resp : StartGameResponse)
      (log : Option LastHandLogResponse),
      handle_start_game hash fuel env st tid href info prev =
        .ok (st', resp, log) →
      ∃ t, st'.tables tid = some t ∧
        t.players.length = info.length ∧
        List.foldl wrapAdd 0 (t.players.map (·.flop_secret_share)) =
          t.community_cards.flop.secret ∧
        List.foldl wrapAdd 0 (t.players.map (·.turn_secret_share)) =
          t.community_cards.turn.secret ∧
        List.foldl wrapAdd 0 (t.players.map (·.river_secret_share)) =
          t.community_cards.river.secret) ∧
    (∀ (env : Env) (info : List StartGamePlayer)
      (cards : List (String × List Card)) (secrets : List (Nat × List Nat))
      (c : Nat) (ps : List Player) (c' : Nat),
      create_players env info cards secrets c = .ok (ps, c') →
      ∀ (i : Nat) (q : Player), ps[i]? = some q →
        (∃ pr0, secrets[0]? = some pr0 ∧
          pr0.2[i]? = some q.flop_secret_share) ∧
        (∃ pr1, secrets[1]? = some pr1 ∧
          pr1.2[i]? = some q.turn_secret_share) ∧
        (∃ pr2, secrets[2]? = some pr2 ∧
          pr2.2[i]? = some q.river_secret_share)) := by
  constructor
  · intro hash fuel env st tid href info prev st' resp log h
    obtain ⟨t, h1, -, h3, -, -, -, -, -, h9, h10, h11⟩ :=
      handle_start_game_ok_spec hash fuel env st tid href info prev
        st' resp log h
    exact ⟨t, h1, h3, h9, h10, h11⟩
  · intro env info cards secrets c ps c' h i q hq
    obtain ⟨-, -, hw⟩ :=
      create_players_loop_inv env secrets info 0 cards c ps c' h
    obtain ⟨w1, w2, w3⟩ := hw i q hq
    exact ⟨getShare_ok_inv _ _ _ _ (by simpa using w1),
      getShare_ok_inv _ _ _ _ (by simpa using w2),
      getShare_ok_inv _ _ _ _ (by simpa using w3)⟩

/-- The two concrete players used by the witness runs. -/
def playersEx : List StartGamePlayer :=
  [{ username := "player1", player_id := 1, public_key := "key1" },
   { username := "player2", player_id := 2, public_key := "key2" }]

/-- Concrete empty storage. -/
def stEmpty : Storage := { tables := fun _ => none, counter := 0 }

/-- A concrete StartGame run: all-zero oracles, two players, empty table
slot. -/
def startEx :
    Except Failure (Storage × StartGameResponse × Option LastHandLogResponse) :=
  handle_start_game hashZero 1 envEx stEmpty 1 1 playersEx []

/-- Whether an embedded operation succeeded. -/
def exceptIsOk {α : Type _} : Except Failure α → Bool
  | .ok _ => true
  | .error _ => false

set_option maxRecDepth 100000 in
theorem start_game_share_sums_witness :
    ∃ st' resp log t,
      handle_start_game hashZero 1 envEx stEmpty 1 1 playersEx [] =
        .ok (st', resp, log) ∧
      st'.tables 1 = some t ∧
      t.players.length = playersEx.length ∧
      List.foldl wrapAdd 0 (t.players.map (·.flop_secret_share)) =
        t.community_cards.flop.secret ∧
      List.foldl wrapAdd 0 (t.players.map (·.turn_secret_share)) =
        t.community_cards.turn.secret ∧
      List.foldl wrapAdd 0 (t.players.map (·.river_secret_share)) =
        t.community_cards.river.secret := by
  have hok : exceptIsOk startEx = true := by decide
  rcases hh : startEx with e | ⟨st', resp, log⟩
  · rw [hh] at hok
    simp [exceptIsOk] at hok
  · obtain ⟨t, h1, h2, h3, h4, h5⟩ :=
      start_game_share_sums.1 hashZero 1 envEx stEmpty 1 1 playersEx []
        st' resp log hh
    exact ⟨st', resp, log, t, hh, h1, h2, h3, h4, h5⟩

/-- C10: a successful StartGame with `n` players advances the persisted
counter by exactly `4 * n + 1` over its pre-call value, and each individual
random-number derivation advances the counter by exactly 1. -/
theorem start_game_counter_advance :
    (∀ (hash : Nat → Nat → Nat → Nat) (fuel : Nat) (env : Env) (st : Storage)
      (tid href : Nat) (info : List StartGamePlayer) (prev : List Nat)
      (st' : Storage) (resp : StartGameResponse)
      (log : Option LastHandLogResponse),
      handle_start_game hash fuel env st tid href info prev =
        .ok (st', resp, log) →
      st'.counter = st.counter + (4 * info.length + 1)) ∧
    (∀ (env : Env) (f : Nat → Nat) (c : Nat), env.randomOracle = some f →
      generate_random_number env c = .ok (f c % u64Mod, c + 1)) := by
  constructor
  · intro hash fuel env st tid href info prev st' resp log h
    obtain ⟨t, -, h2, -⟩ :=
      handle_start_game_ok_spec hash fuel env st tid href info prev
        st' resp log h
    exact h2
  · intro env f c henv
    exact generate_random_number_eq env f henv c

set_option maxRecDepth 100000 in
theorem start_game_counter_advance_witness :
    (∃ st' resp log,
      handle_start_game hashZero 1 envEx stEmpty 1 1 playersEx [] =
        .ok (st', resp, log) ∧
      st'.counter = stEmpty.counter + (4 * playersEx.length + 1)) ∧
    generate_random_number envEx 0 = .ok (fZero 0 % u64Mod, 0 + 1) := by
  constructor
  · have hok : exceptIsOk startEx = true := by decide
    rcases hh : startEx with e | ⟨st', resp, log⟩
    · rw [hh] at hok
      simp [exceptIsOk] at hok
    · exact ⟨st', resp, log, hh,
        start_game_counter_advance.1 hashZero 1 envEx stEmpty 1 1 playersEx []
          st' resp log hh⟩
  · exact start_game_counter_advance.2 envEx fZero 0 rfl

/-! ### C5: RevealCommunityCards -/

set_option maxRecDepth 10000 in
/-- C5: `handle_community_cards` fails with `TableNotFound` when no table
exists; fails with a `GameStateError` carrying the offending phase and
table id for `PreFlop`; fails with `CardsAlreadyRetrieved` — leaving the
stored table untouched, since no storage is returned — when the requested
phase's reveal timestamp is already set; and otherwise stamps exactly that
phase with the current block time, persists the table, and returns exactly
3 cards for `Flop` and exactly 1 card for `Turn` or `River` (tables built
by StartGame always hold 3 flop cards, final conjunct). -/
theorem community_cards_cases :
    (∀ (env : Env) (st : Storage) (tid : Nat) (gs : GameState),
      st.tables tid = none →
      handle_community_cards env st tid gs =
        .error (.contractError (.TableNotFound tid))) ∧
    (∀ (env : Env) (st : Storage) (tid : Nat) (t : PokerTable),
      st.tables tid = some t →
      handle_community_cards env st tid .PreFlop =
        .error (.contractError
          (.GameStateError "distribute_community_cards" tid (some .PreFlop)))) ∧
    (∀ (env : Env) (st : Storage) (tid : Nat) (t : PokerTable) (ts : Nat),
      st.tables tid = some t →
      t.community_cards.flop.retrieved_at = some ts →
      handle_community_cards env st tid .Flop =
        .error (.contractError .CardsAlreadyRetrieved)) ∧
    (∀ (env : Env) (st : Storage) (tid : Nat) (t : PokerTable) (ts : Nat),
      st.tables tid = some t →
      t.community_cards.turn.retrieved_at = some ts →
      handle_community_cards env st tid .Turn =
        .error (.contractError .CardsAlreadyRetrieved)) ∧
    (∀ (env : Env) (st : Storage) (tid : Nat) (t : PokerTable) (ts : Nat),
      st.tables tid = some t →
      t.community_cards.river.retrieved_at = some ts →
      handle_community_cards env st tid .River =
        .error (.contractError .CardsAlreadyRetrieved)) ∧
    (∀ (env : Env) (st : Storage) (tid : Nat) (t : PokerTable),
      st.tables tid = some t →
      t.community_cards.flop.retrieved_at = none →
      handle_community_cards env st tid .Flop =
        .ok (saveTable st tid { t with community_cards :=
              { t.community_cards with flop :=
                { t.community_cards.flop with retrieved_at := some env.time } } },
             { table_id := tid, hand_ref := t.hand_ref, game_state := .Flop
               community_cards := t.community_cards.flop.cards })) ∧
    (∀ (env : Env) (st : Storage) (tid : Nat) (t : PokerTable),
      st.tables tid = some t →
      t.community_cards.turn.retrieved_at = none →
      handle_community_cards env st tid .Turn =
        .ok (saveTable st tid { t with community_cards :=
              { t.community_cards with turn :=
                { t.community_cards.turn with retrieved_at := some env.time } } },
             { table_id := tid, hand_ref := t.hand_ref, game_state := .Turn
               community_cards := [t.community_cards.turn.card] })) ∧
    (∀ (env : Env) (st : Storage) (tid : Nat) (t : PokerTable),
      st.tables tid = some t →
      t.community_cards.river.retrieved_at = none →
      handle_community_cards env st tid .River =
        .ok (saveTable st tid { t with community_cards :=
              { t.community_cards with river :=
                { t.community_cards.river with retrieved_at := some env.time } } },
             { table_id := tid, hand_ref := t.hand_ref, game_state := .River
               community_cards := [t.community_cards.river.card] })) ∧
    (∀ (hash : Nat → Nat → Nat → Nat) (fuel : Nat) (env : Env) (st : Storage)
      (tid href : Nat) (info : List StartGamePlayer) (prev : List Nat)
      (st' : Storage) (resp : StartGameResponse)
      (log : Option LastHandLogResponse),
      handle_start_game hash fuel env st tid href info prev =
        .ok (st', resp, log) →
      ∃ t, st'.tables tid = some t ∧
        t.community_cards.flop.cards.length = 3 ∧
        t.community_cards.flop.retrieved_at = none ∧
        t.community_cards.turn.retrieved_at = none ∧
        t.community_cards.river.retrieved_at = none) := by
  refine ⟨?_, ?_, ?_, ?_, ?_, ?_, ?_, ?_, ?_⟩
  · intro env st tid gs h
    simp [handle_community_cards, h]
  · intro env st tid t h
    simp [handle_community_cards, h]
  · intro env st tid t ts h hts
    simp [handle_community_cards, h, hts]
  · intro env st tid t ts h hts
    simp [handle_community_cards, h, hts]
  · intro env st tid t ts h hts
    simp [handle_community_cards, h, hts]
  · intro env st tid t h hn
    simp [handle_community_cards, h, hn]
  · intro env st tid t h hn
    simp [handle_community_cards, h, hn]
  · intro env st tid t h hn
    simp [handle_community_cards, h, hn]
  · intro hash fuel env st tid href info prev st' resp log h
    obtain ⟨t, h1, -, -, h4, h5, h6, h7, -, -, -, -⟩ :=
      handle_start_game_ok_spec hash fuel env st tid href info prev
        st' resp log h
    exact ⟨t, h1, h4, h5, h6, h7⟩

/-- A concrete card for the witness tables. -/
def cardEx : Card := Card.new 0 1

/-- A concrete table with no reveal timestamp set. -/
def tableFresh : PokerTable :=
  { hand_ref := 1
    players := [{ username := "player1", player_id := 1, public_key := "key1"
                  hand := [cardEx, cardEx], hand_secret := 3
                  flop_secret_share := 4, turn_secret_share := 5
                  river_secret_share := 6 }]
    community_cards :=
      { flop := { cards := [cardEx, cardEx, cardEx], secret := 5, retrieved_at := none }
        turn := { card := cardEx, secret := 6, retrieved_at := none }
        river := { card := cardEx, secret := 7, retrieved_at := none } }
    showdown_retrieved_at := none }

/-- The table `tableFresh` after its flop reveal timestamp has been set. -/
def tableFlopDone : PokerTable :=
  { tableFresh with community_cards :=
    { tableFresh.community_cards with flop :=
      { tableFresh.community_cards.flop with retrieved_at := some 3 } } }

/-- Storage holding `tableFresh` under table id 1. -/
def stOne : Storage :=
  { tables := fun k => if k = 1 then some tableFresh else none, counter := 0 }

/-- Storage holding `tableFlopDone` under table id 1. -/
def stOneDone : Storage :=
  { tables := fun k => if k = 1 then some tableFlopDone else none, counter := 0 }

theorem community_cards_cases_witness :
    (handle_community_cards envEx stOne 2 .Flop =
      .error (.contractError (.TableNotFound 2))) ∧
    (handle_community_cards envEx stOne 1 .PreFlop =
      .error (.contractError
        (.GameStateError "distribute_community_cards" 1 (some .PreFlop)))) ∧
    (handle_community_cards envEx stOneDone 1 .Flop =
      .error (.contractError .CardsAlreadyRetrieved)) ∧
    (handle_community_cards envEx stOne 1 .Flop =
      .ok (saveTable stOne 1 { tableFresh with community_cards :=
            { tableFresh.community_cards with flop :=
              { tableFresh.community_cards.flop with
                  retrieved_at := some envEx.time } } },
           { table_id := 1, hand_ref := tableFresh.hand_ref, game_state := .Flop
             community_cards := tableFresh.community_cards.flop.cards })) :=
  ⟨community_cards_cases.1 envEx stOne 2 .Flop rfl,
   community_cards_cases.2.1 envEx stOne 1 tableFresh rfl,
   community_cards_cases.2.2.1 envEx stOneDone 1 tableFlopDone 3 rfl rfl,
   community_cards_cases.2.2.2.2.2.1 envEx stOne 1 tableFresh rfl rfl⟩

/-! ### C6: Showdown community cards -/

lemma handle_showdown_ok_resp (env : Env) (st : Storage) (tid : Nat)
    (t : PokerTable) (gs : GameState) (ids : List Nat)
    (st' : Storage) (resp : ShowdownResponse)
    (ht : st.tables tid = some t)
    (h : handle_showdown env st tid gs ids = .ok (st', resp)) :
    resp.community_cards = handle_all_in_showdown t.community_cards gs := by
  unfold handle_showdown at h
  split at h
  · next hnone =>
    rw [ht] at hnone
    exact absurd hnone (by simp)
  · next table heq =>
    rw [ht] at heq
    injection heq with htt
    subst htt
    split at h
    · exact absurd h (by simp)
    · split at h
      · exact absurd h (by simp)
      · simp only [Except.ok.injEq, Prod.mk.injEq] at h
        rw [← h.2]

/-- C6: for every successful Showdown call, the extra community cards in
the response are determined by the phase argument alone: `PreFlop` yields
flop then turn then river, `Flop` yields turn then river, `Turn` yields
river only, and `River` yields no additional community cards. -/
theorem showdown_community_cards :
    (∀ (env : Env) (st : Storage) (tid : Nat) (t : PokerTable)
      (ids : List Nat) (st' : Storage) (resp : ShowdownResponse),
      st.tables tid = some t →
      handle_showdown env st tid .PreFlop ids = .ok (st', resp) →
      resp.community_cards = some (t.community_cards.flop.cards
        ++ [t.community_cards.turn.card, t.community_cards.river.card])) ∧
    (∀ (env : Env) (st : Storage) (tid : Nat) (t : PokerTable)
      (ids : List Nat) (st' : Storage) (resp : ShowdownResponse),
      st.tables tid = some t →
      handle_showdown env st tid .Flop ids = .ok (st', resp) →
      resp.community_cards =
        some [t.community_cards.turn.card, t.community_cards.river.card]) ∧
    (∀ (env : Env) (st : Storage) (tid : Nat) (t : PokerTable)
      (ids : List Nat) (st' : Storage) (resp : ShowdownResponse),
      st.tables tid = some t →
      handle_showdown env st tid .Turn ids = .ok (st', resp) →
      resp.community_cards = some [t.community_cards.river.card]) ∧
    (∀ (env : Env) (st : Storage) (tid : Nat) (t : PokerTable)
      (ids : List Nat) (st' : Storage) (resp : ShowdownResponse),
      st.tables tid = some t →
      handle_showdown env st tid .River ids = .ok (st', resp) →
      resp.community_cards = none) := by
  refine ⟨?_, ?_, ?_, ?_⟩ <;>
    · intro env st tid t ids st' resp ht h
      rw [handle_showdown_ok_resp env st tid t _ ids st' resp ht h]
      rfl

theorem showdown_community_cards_witness :
    ∃ st' resp,
      handle_showdown envEx stOne 1 .River [1] = .ok (st', resp) ∧
      resp.community_cards = none := by
  have hok : exceptIsOk (handle_showdown envEx stOne 1 .River [1]) = true := by
    decide
  rcases hh : handle_showdown envEx stOne 1 .River [1] with e | ⟨st', resp⟩
  · rw [hh] at hok
    simp [exceptIsOk] at hok
  · exact ⟨st', resp,
      rfl, showdown_community_cards.2.2.2 envEx stOne 1 tableFresh [1]
        st' resp rfl hh⟩

/-! ### C7: StartGame validation errors -/

/-- C7: a StartGame call with a player count outside 2..9 fails with
`InvalidPlayerCount` carrying the count, and a call with a valid count but
duplicated public keys fails with `DuplicatePublicKeys`; in both cases no
storage is produced, so neither the table slot nor the counter changes. -/
theorem start_game_validation :
    (∀ (hash : Nat → Nat → Nat → Nat) (fuel : Nat) (env : Env) (st : Storage)
      (tid href : Nat) (info : List StartGamePlayer) (prev : List Nat),
      ¬ (MIN_PLAYERS ≤ info.length ∧ info.length ≤ MAX_PLAYERS) →
      handle_start_game hash fuel env st tid href info prev =
        .error (.contractError (.InvalidPlayerCount info.length))) ∧
    (∀ (hash : Nat → Nat → Nat → Nat) (fuel : Nat) (env : Env) (st : Storage)
      (tid href : Nat) (info : List StartGamePlayer) (prev : List Nat),
      (MIN_PLAYERS ≤ info.length ∧ info.length ≤ MAX_PLAYERS) →
      ¬ (info.map (·.public_key)).Nodup →
      handle_start_game hash fuel env st tid href info prev =
        .error (.contractError .DuplicatePublicKeys)) := by
  constructor
  · intro hash fuel env st tid href info prev h
    simp [handle_start_game, validate_players_count_err info h]
  · intro hash fuel env st tid href info prev h1 h2
    simp [handle_start_game, validate_players_dup_err info h1 h2]

/-- A single concrete player (invalid count). -/
def playersOneEx : List StartGamePlayer :=
  [{ username := "player1", player_id := 1, public_key := "key1" }]

/-- Two concrete players sharing a public key. -/
def playersDupEx : List StartGamePlayer :=
  [{ username := "player1", player_id := 1, public_key := "key1" },
   { username := "player2", player_id := 2, public_key := "key1" }]

theorem start_game_validation_witness :
    (handle_start_game hashZero 1 envEx stEmpty 1 1 playersOneEx [] =
      .error (.contractError (.InvalidPlayerCount playersOneEx.length))) ∧
    (handle_start_game hashZero 1 envEx stEmpty 1 1 playersDupEx [] =
      .error (.contractError .DuplicatePublicKeys)) :=
  ⟨start_game_validation.1 hashZero 1 envEx stEmpty 1 1 playersOneEx []
    (by decide),
   start_game_validation.2 hashZero 1 envEx stEmpty 1 1 playersDupEx []
    (by decide) (by decide)⟩

/-! ### C8: missing previous-hand player -/

lemma buildShowdownPlayers_missing (players : List Player) (pid : Nat)
    (hnone : ∀ q ∈ players, q.player_id ≠ pid) :
    ∀ (ids : List Nat), pid ∈ ids →
      buildShowdownPlayers players ids = .error .abort := by
  intro ids
  induction ids with
  | nil => intro h; simp at h
  | cons hd rest ih =>
    intro hmem
    rw [List.mem_cons] at hmem
    unfold buildShowdownPlayers
    rcases hmem with rfl | hmem
    · have hf : players.find? (fun p => p.player_id == pid) = none := by
        rw [List.find?_eq_none]
        intro q hq
        simpa using hnone q hq
      rw [hf]
    · split
      · rfl
      · rw [ih hmem]

/-- C8: a StartGame call against an existing table, with a previous-hand
showdown id matching no player of the outgoing table, never completes
successfully; when the players pass validation, the failure is the
internal panic of the `unwrap` on the failed player lookup (modelled as
`Failure.abort`), not a typed error. -/
theorem start_game_missing_prev_player
    (hash : Nat → Nat → Nat → Nat) (fuel : Nat) (env : Env) (st : Storage)
    (tid href : Nat) (info : List StartGamePlayer) (prev : List Nat)
    (t : PokerTable) (pid : Nat)
    (ht : st.tables tid = some t) (hmem : pid ∈ prev)
    (hmiss : ∀ q ∈ t.players, q.player_id ≠ pid) :
    (¬ ∃ r, handle_start_game hash fuel env st tid href info prev = .ok r) ∧
    (validate_players info = .ok () →
      handle_start_game hash fuel env st tid href info prev =
        .error .abort) := by
  have hlog : create_previous_hand_log st tid prev = .error .abort := by
    simp only [create_previous_hand_log, ht,
      buildShowdownPlayers_missing t.players pid hmiss prev hmem]
  constructor
  · rintro ⟨r, hr⟩
    unfold handle_start_game at hr
    split at hr
    · exact absurd hr (by simp)
    · rw [hlog] at hr
      exact absurd hr (by simp)
  · intro hval
    unfold handle_start_game
    rw [hval, hlog]

/-- Storage whose table 1 is `tableFresh` (its only player has id 1), used
to exhibit a missing previous-hand id 42. -/
theorem start_game_missing_prev_player_witness :
    (¬ ∃ r, handle_start_game hashZero 1 envEx stOne 1 1 playersEx [42] = .ok r) ∧
    (validate_players playersEx = .ok () →
      handle_start_game hashZero 1 envEx stOne 1 1 playersEx [42] =
        .error .abort) :=
  start_game_missing_prev_player hashZero 1 envEx stOne 1 1 playersEx [42]
    tableFresh 42 rfl (by decide) (by decide)

/-! ### C9: absent block entropy -/

/-- C9 counterexample: with the block entropy absent, the random-number
derivation does not fail by propagating a typed error to the caller — at
the concrete input it fails with the modelled Rust panic (`unwrap` on
`None`), `Failure.abort`, and with nothing else. -/
theorem gen_random_no_entropy_counterexample :
    ¬ (∃ e, generate_random_number envNoEntropy 0 = .error e ∧
        e ≠ Failure.abort) := by
  rintro ⟨e, he, hne⟩
  have h2 : (Except.error Failure.abort : Except Failure (Nat × Nat)) =
      .error e := he
  injection h2 with h3
  exact hne h3.symm

/-- C9 (amended): with the block entropy absent, `generate_random_number`
fails — via the modelled panic of the `unwrap` on `None`, not a propagated
typed error — returning no value and leaving the counter untouched. -/
theorem gen_random_no_entropy (env : Env) (c : Nat)
    (h : env.randomOracle = none) :
    generate_random_number env c = .error .abort ∧
    ∀ (v c' : Nat), generate_random_number env c ≠ .ok (v, c') := by
  constructor
  · simp [generate_random_number, h]
  · intro v c'
    simp [generate_random_number, h]

theorem gen_random_no_entropy_witness :
    generate_random_number envNoEntropy 0 = .error .abort ∧
    ∀ (v c' : Nat), generate_random_number envNoEntropy 0 ≠ .ok (v, c') :=
  gen_random_no_entropy envNoEntropy 0 rfl

end SecretPoker
